import Mathlib

/-!
Verification development for the K2 TSO (Timestamp Oracle) service
(`src/k2/tso`): the worker timestamp-issuing hot path, the controller
lease / reserved-time-threshold machinery, and the control-info fan-out.

The data model (`TSOWorkerControlInfo`, the controller state fields, the
inline member-function bodies `GenNewLeaseVal`, `TimeAuthorityNow`,
`JoinServerCluster`, `RenewLeaseAndExtendReservedTimeThreshold`) is
embedded from the repository header `TSOService.h`.  The bodies of
`TSOWorker::GetTimestampFromTSO`, the controller heartbeat and
`SetRoleInternal` live in a `.cpp` file that is not part of the sources;
those operations are modelled from the specification (section 4 of the
spec) and are marked `Modelled from the spec:` in their doc comments.

Machine integers are embedded as `Nat` with an explicit `% 2^64` where
the C++ `uint64_t` wraparound matters (controller lease arithmetic, the
`TBEAdjustment` encoding); the worker pseudo-code of the spec is stated
over mathematical naturals, with the u8/u16 ranges appearing as explicit
well-formedness hypotheses where a proof needs them.
-/

namespace TSO

/-- Modulus of the C++ `uint64_t` fields (`TBEAdjustment`,
`ReservedTimeShreshold`, lease values, `_diffTALocalInNanosec`). -/
def uint64Mod : Nat := 2 ^ 64

/-- Control info sent from the controller to every worker, embedded from
`TSOService::TSOWorkerControlInfo` in `TSOService.h` (all ticks in
nanoseconds).  `TBEAdjustment` is declared `uint64_t` in the source (not a
signed type), so it is a `Nat` here; `ReservedTimeShreshold` keeps the
source's spelling. -/
structure TSOWorkerControlInfo where
  IsReadyToIssueTS : Bool
  TBENanoSecStep : Nat
  TBEAdjustment : Nat
  TsDelta : Nat
  ReservedTimeShreshold : Nat
  BatchTTL : Nat
deriving DecidableEq, Repr

/-- The default constructor of `TSOWorkerControlInfo` in `TSOService.h`:
`IsReadyToIssueTS(false), TBENanoSecStep(0), TBEAdjustment(0), TsDelta(0),
ReservedTimeShreshold(0), BatchTTL(0)`. -/
def TSOWorkerControlInfo.mkDefault : TSOWorkerControlInfo :=
  { IsReadyToIssueTS := false
    TBENanoSecStep := 0
    TBEAdjustment := 0
    TsDelta := 0
    ReservedTimeShreshold := 0
    BatchTTL := 0 }

/-- A timestamp batch, with the fields the spec gives for `TimestampBatch`
(`dto/TimestampBatch.h` is not among the sources): base TBE in TAI ns,
uncertainty window, issuing TSO id, per-worker step, start slot count,
number of timestamps, and client-side TTL. -/
structure TimestampBatch where
  tbeBase : Nat
  uncertaintyDelta : Nat
  tsoId : Nat
  stepSize : Nat
  startCount : Nat
  batchSize : Nat
  ttl : Nat
deriving DecidableEq, Repr

/-- Decoding a batch into its timestamps' `tEndTAI` values: the spec's
rule `tEndTAI = tbeBase + (startCount + i) * stepSize` for
`i = 0 .. batchSize - 1`. -/
def decodeBatch (B : TimestampBatch) : List Nat :=
  (List.range B.batchSize).map (fun i => B.tbeBase + (B.startCount + i) * B.stepSize)

/-- Mutable worker state, embedded from the `TSOService::TSOWorker` data
members `_lastRequestTBEMicroSecRounded` and `_lastRequestTimeStampCount`. -/
structure TSOWorkerState where
  lastRequestTBEMicroSecRounded : Nat
  lastRequestTimeStampCount : Nat
deriving DecidableEq, Repr

/-- Initial worker state: both counters are zero-initialized in the header
(`{0}` member initializers). -/
def initWorkerState : TSOWorkerState :=
  { lastRequestTBEMicroSecRounded := 0, lastRequestTimeStampCount := 0 }

/-- Number of timestamps a worker can issue per microsecond:
`1000 / TBENanoSecStep` (spec step 5/7). -/
def nSlotsPerMicroSec (step : Nat) : Nat := 1000 / step

/-- Modelled from the spec: step 3 of the `getTimestampBatch` hot path,
`tbeCandidate = floor(nowTAI / 1000) * 1000 + offset`, where `offset` is
the worker's fixed residue class modulo 1000 (the per-core stripe). -/
def tbeCandidate (offset nowTAI : Nat) : Nat :=
  nowTAI / 1000 * 1000 + offset

/-- Modelled from the spec: steps 4-6 of the `getTimestampBatch` hot path
(the body of `TSOWorker::GetTimestampFromTSO` is not among the sources).
Returns the microsecond-rounded TBE for this request together with the
start slot count.  The clock-backward tie-break ("treat `nowMicroRounded =
lastRequestTBEMicroSecRounded` and re-enter step 5") is the `max`; within
the same microsecond, `available == 0` (all `1000/step` slots consumed)
advances to the next microsecond with start count `0`; a strictly newer
microsecond restarts the count at `0`. -/
def resolveSlot (step offset : Nat) (st : TSOWorkerState) (nowTAI : Nat) : Nat × Nat :=
  let cand := max (tbeCandidate offset nowTAI) st.lastRequestTBEMicroSecRounded
  if cand = st.lastRequestTBEMicroSecRounded then
    if nSlotsPerMicroSec step ≤ st.lastRequestTimeStampCount then
      (st.lastRequestTBEMicroSecRounded + 1000, 0)
    else
      (st.lastRequestTBEMicroSecRounded, st.lastRequestTimeStampCount)
  else
    (cand, 0)

/-- Modelled from the spec: step 8, the TBE of the last timestamp in the
batch, `tbeEndOfBatch = nowMicroRounded + (startCount + batchSize - 1) * step`. -/
def tbeEndOfBatch (step : Nat) (slot : Nat × Nat) (size : Nat) : Nat :=
  slot.1 + (slot.2 + size - 1) * step

/-- Modelled from the spec: the empty batch returned for
`batchSizeRequested == 0` ("return an empty batch (`batchSize = 0`)
successfully"). -/
def emptyBatch (cfg : TSOWorkerControlInfo) (tsoId : Nat) : TimestampBatch :=
  { tbeBase := 0
    uncertaintyDelta := cfg.TsDelta
    tsoId := tsoId
    stepSize := cfg.TBENanoSecStep
    startCount := 0
    batchSize := 0
    ttl := cfg.BatchTTL }

/-- Modelled from the spec: the hot-path algorithm of
`TSOWorker::GetTimestampFromTSO` (section 4.1 of the spec; the `.cpp`
body is not among the sources).  `nowTAI` is the already-adjusted TAI
reading (`nowLocal + tbeAdjustment`, spec step 2), `cfg` the worker's
current control info, `offset` its fixed stripe residue.  `none` models
the `NotReady` failure (spec steps 1 and 9); on failure the worker state
is unchanged, since the persist of step 10 happens only after the
threshold check of step 9. -/
def GetTimestampFromTSO (cfg : TSOWorkerControlInfo) (tsoId offset : Nat)
    (st : TSOWorkerState) (nowTAI req : Nat) :
    Option (TimestampBatch × TSOWorkerState) :=
  if cfg.IsReadyToIssueTS = false then
    none
  else if req = 0 then
    some (emptyBatch cfg tsoId, st)
  else
    let slot := resolveSlot cfg.TBENanoSecStep offset st nowTAI
    let size := min req (nSlotsPerMicroSec cfg.TBENanoSecStep - slot.2)
    if cfg.ReservedTimeShreshold < tbeEndOfBatch cfg.TBENanoSecStep slot size then
      none
    else
      some
        ({ tbeBase := slot.1
           uncertaintyDelta := cfg.TsDelta
           tsoId := tsoId
           stepSize := cfg.TBENanoSecStep
           startCount := slot.2
           batchSize := size
           ttl := cfg.BatchTTL },
         { lastRequestTBEMicroSecRounded := slot.1
           lastRequestTimeStampCount := slot.2 + size })

/-- One client call to a worker: the control info currently in force (the
threshold and adjustment may have been changed by broadcasts between
calls), the adjusted TAI clock reading, and the requested batch size. -/
structure WorkerCall where
  cfg : TSOWorkerControlInfo
  nowTAI : Nat
  req : Nat
deriving DecidableEq, Repr

/-- Run a worker over a sequence of client calls, collecting the batches
of the successful calls (failed calls leave the state unchanged). -/
def runWorker (tsoId offset : Nat) :
    TSOWorkerState → List WorkerCall → TSOWorkerState × List TimestampBatch
  | st, [] => (st, [])
  | st, c :: cs =>
    match GetTimestampFromTSO c.cfg tsoId offset st c.nowTAI c.req with
    | none => runWorker tsoId offset st cs
    | some (B, st') =>
      let r := runWorker tsoId offset st' cs
      (r.1, B :: r.2)

/-- All `tEndTAI` values decoded from a list of batches, in issue order. -/
def issuedOf : List TimestampBatch → List Nat
  | [] => []
  | B :: bs => decodeBatch B ++ issuedOf bs

/-! Controller state and the inline member functions of
`TSOService::TSOController` from `TSOService.h`. -/

/-- Controller state, embedded from the data members of
`TSOService::TSOController`: `_isMasterInstance`, `_masterInstanceURL`,
`_diffTALocalInNanosec` (`uint64_t`, zero-initialized),
`_prevReservedTimeShreshold` (initialized to `ULLONG_MAX`), `_myLease`,
`_stopRequested`, the two control-info copies, and the heartbeat timer
interval in nanoseconds (`tso.ctrol_heart_beat_interval`, default 10 ms;
`Modelled from the spec:` the `ConfigDuration`/`Duration` type of
`k2/common/Chrono.h` is not among the sources, the spec gives all ticks
in nanoseconds). -/
structure TSOControllerState where
  isMasterInstance : Bool
  masterInstanceURL : String
  diffTALocalInNanosec : Nat
  prevReservedTimeShreshold : Nat
  myLease : Nat
  stopRequested : Bool
  lastSentControlInfo : TSOWorkerControlInfo
  controlInfoToSend : TSOWorkerControlInfo
  heartBeatTimerInterval : Nat
deriving DecidableEq, Repr

/-- Embedded from `TSOService.h`: `TimeAuthorityNow()` returns
`now_nsec_count() + _diffTALocalInNanosec` — local steady-clock
nanoseconds plus the stored TAI-local difference — as `uint64_t`
arithmetic, hence the `% 2^64`. -/
def TimeAuthorityNow (st : TSOControllerState) (nowLocal : Nat) : Nat :=
  (nowLocal + st.diffTALocalInNanosec) % uint64Mod

/-- Embedded from `TSOService.h`: `GenNewLeaseVal()` returns
`TimeAuthorityNow() + _heartBeatTimerInterval().count() * 3 + 1*1000*1000`
in `uint64_t` arithmetic (each addition wraps). -/
def GenNewLeaseVal (st : TSOControllerState) (nowLocal : Nat) : Nat :=
  ((TimeAuthorityNow st nowLocal + st.heartBeatTimerInterval * 3 % uint64Mod) % uint64Mod
    + 1 * 1000 * 1000) % uint64Mod

/-- The lease value the spec asks for: "`TAI-now + 3 * Hhb + 1 ms`", all
in nanoseconds, reduced to the `uint64_t` range. -/
def specLeaseVal (st : TSOControllerState) (nowLocal : Nat) : Nat :=
  (TimeAuthorityNow st nowLocal + 3 * st.heartBeatTimerInterval + 1000000) % uint64Mod

/-- Embedded from `TSOService.h`:
`RenewLeaseAndExtendReservedTimeThreshold()` computes
`extendedLeaseAndThreshold = GenNewLeaseVal()` once and returns the tuple
`(extendedLeaseAndThreshold, extendedLeaseAndThreshold)` in an
already-ready future; it performs no consensus interaction and cannot
fail. -/
def RenewLeaseAndExtendReservedTimeThreshold (st : TSOControllerState) (nowLocal : Nat) :
    Nat × Nat :=
  let extendedLeaseAndThreshold := GenNewLeaseVal st nowLocal
  (extendedLeaseAndThreshold, extendedLeaseAndThreshold)

/-- Embedded from `TSOService.h`: `JoinServerCluster()` builds the result
tuple `(true, 0)` ("fake new master"), sets `_myLease = GenNewLeaseVal()`,
sets `_masterInstanceURL` to the URL of this instance's own TCP server
endpoint, and returns the result in an already-ready future, without any
consensus interaction.  `ownTcpURL` stands for
`RPC().getServerEndpoint(TCPRPCProtocol::proto)->getURL()`. -/
def JoinServerCluster (st : TSOControllerState) (nowLocal : Nat) (ownTcpURL : String) :
    (Bool × Nat) × TSOControllerState :=
  ((true, 0),
   { st with
      myLease := GenNewLeaseVal st nowLocal
      masterInstanceURL := ownTcpURL })

/-! The master-epoch heartbeat / broadcast model (the bodies of
`HeartBeat`, `DoHeartBeat`, `TimeSync` and `SendWorkersControlInfo` are
not among the sources). -/

/-- Modelled from the spec: the master heartbeat's threshold update — if
the `newThreshold` obtained from
`RenewLeaseAndExtendReservedTimeThreshold` is greater than
`pendingWCI.reservedTimeThreshold`, update `pendingWCI`; otherwise leave
it unchanged. -/
def applyRenewedThreshold (pending : TSOWorkerControlInfo) (newThreshold : Nat) :
    TSOWorkerControlInfo :=
  if pending.ReservedTimeShreshold < newThreshold then
    { pending with ReservedTimeShreshold := newThreshold }
  else
    pending

/-- Modelled from the spec: the time-sync timer updates only the
in-memory pending control info's `tbeAdjustment` and `tsDelta`; it does
not broadcast and does not touch the reserved-time threshold. -/
def applyTimeSync (pending : TSOWorkerControlInfo) (adj tsD : Nat) : TSOWorkerControlInfo :=
  { pending with TBEAdjustment := adj, TsDelta := tsD }

/-- Controller-side events of one master epoch: a heartbeat tick carrying
the threshold obtained from consensus, or a time-sync tick carrying the
new clock adjustment and uncertainty window. -/
inductive CtrlEvent where
  | heartbeat (newThreshold : Nat)
  | timeSync (adj tsD : Nat)
deriving DecidableEq, Repr

/-- Modelled from the spec: run one master epoch over a sequence of
heartbeat / time-sync ticks, starting from the pending control info the
epoch's `setRole` left behind.  Each heartbeat first applies the
threshold update and then broadcasts the pending control info
(`SendWorkersControlInfo`); time-sync ticks do not broadcast.  Returns
the final pending control info and the list of broadcast control infos in
send order. -/
def runMasterEpoch :
    TSOWorkerControlInfo → List CtrlEvent → TSOWorkerControlInfo × List TSOWorkerControlInfo
  | pending, [] => (pending, [])
  | pending, CtrlEvent.heartbeat nt :: evs =>
    let p := applyRenewedThreshold pending nt
    let r := runMasterEpoch p evs
    (r.1, p :: r.2)
  | pending, CtrlEvent.timeSync adj tsD :: evs =>
    runMasterEpoch (applyTimeSync pending adj tsD) evs

/-! Master-handover model: a new master controller with previous
reserved-time threshold `R`, its heartbeat broadcasts, and one of its
(fresh) workers serving client requests.  All events carry their TAI
time; broadcast delivery is modelled synchronously, which is faithful
because the spec serializes heartbeats ("the broadcast is complete only
when every worker acknowledges application; next heartbeat does not begin
until broadcast completes"). -/

/-- Joint state of the handover model: the controller's pending control
info, the worker's currently applied control info, and the worker's
issuing state. -/
structure HandoverState where
  pending : TSOWorkerControlInfo
  workerVCI : TSOWorkerControlInfo
  workerSt : TSOWorkerState
deriving DecidableEq, Repr

/-- Events of the handover model: a heartbeat tick (threshold update plus
broadcast) or a client timestamp request of the given size. -/
inductive HandoverEvent where
  | hb (newThreshold : Nat)
  | request (req : Nat)
deriving DecidableEq, Repr

/-- Modelled from the spec: the readiness the controller stamps on a
broadcast control info — `isReadyToIssueTs = isMaster && (TAI-now >
prevReservedTimeThreshold) && !stopRequested` (`broadcastWCI`, with the
new master running and not stopping), enforcing the safe-handover
wait-out of `SetRoleInternal`. -/
def broadcastReady (R t : Nat) : Bool := decide (R < t)

/-- Modelled from the spec: one step of the handover model at TAI time
`t`.  A heartbeat applies the threshold update to the pending control
info and synchronously delivers it to the worker with the readiness flag
computed by `broadcastReady`; a request runs the worker hot path
`GetTimestampFromTSO` at `nowTAI = t` against the worker's current
control info. -/
def handoverStep (R tsoId offset : Nat) (s : HandoverState) (t : Nat) :
    HandoverEvent → HandoverState × Option TimestampBatch
  | HandoverEvent.hb nt =>
    let p := applyRenewedThreshold s.pending nt
    ({ pending := p
       workerVCI := { p with IsReadyToIssueTS := broadcastReady R t }
       workerSt := s.workerSt },
     none)
  | HandoverEvent.request req =>
    match GetTimestampFromTSO s.workerVCI tsoId offset s.workerSt t req with
    | none => (s, none)
    | some (B, st') => ({ s with workerSt := st' }, some B)

/-- Run the handover model over a list of timed events, collecting each
event's time together with the batch it produced (if any). -/
def runHandover (R tsoId offset : Nat) :
    HandoverState → List (Nat × HandoverEvent) →
    HandoverState × List (Nat × Option TimestampBatch)
  | s, [] => (s, [])
  | s, (t, ev) :: evs =>
    let r := handoverStep R tsoId offset s t ev
    let rest := runHandover R tsoId offset r.1 evs
    (rest.1, (t, r.2) :: rest.2)

/-- Modelled from the spec: the state right after the new master's
`SetRoleInternal(true, R)` — the pending control info is the initialized
one with `reservedTimeThreshold = prevReservedTimeThreshold` set
"exactly", and the worker still holds its default-constructed (not
ready) control info with fresh issuing counters. -/
def initHandoverState (R : Nat) (w0 : TSOWorkerControlInfo) : HandoverState :=
  { pending := { w0 with ReservedTimeShreshold := R }
    workerVCI := TSOWorkerControlInfo.mkDefault
    workerSt := initWorkerState }

/-- The `tEndTAI` values issued during a handover run, in issue order. -/
def issuedOfRun (outs : List (Nat × Option TimestampBatch)) : List Nat :=
  issuedOf (outs.filterMap Prod.snd)

/-- Two's-complement encoding of a signed delta into the `uint64_t`
range: the unique value in `[0, 2^64)` congruent to the delta modulo
`2^64`.  This is how a negative TAI-local difference can be carried by
the source's unsigned `TBEAdjustment` / `_diffTALocalInNanosec` fields. -/
def encodeUInt64 (delta : Int) : Nat := (delta % (2 ^ 64 : Int)).toNat

/-- Concrete controller state for the C8 witness: the stored TAI-local
difference is the two's-complement encoding of the negative delta `-5`
(the local steady clock is five nanoseconds ahead of TAI). -/
def c8CtrlState : TSOControllerState :=
  { isMasterInstance := true
    masterInstanceURL := ""
    diffTALocalInNanosec := encodeUInt64 (-5)
    prevReservedTimeShreshold := 0
    myLease := 0
    stopRequested := false
    lastSentControlInfo := TSOWorkerControlInfo.mkDefault
    controlInfoToSend := TSOWorkerControlInfo.mkDefault
    heartBeatTimerInterval := 10000000 }

/-- Least `tEndTAI` the worker may issue next: one step past the last
issued timestamp, `lastRequestTBEMicroSecRounded +
lastRequestTimeStampCount * step`.  Every already-issued timestamp is
strictly below it, every future one at least it. -/
def nextFloor (step : Nat) (st : TSOWorkerState) : Nat :=
  st.lastRequestTBEMicroSecRounded + st.lastRequestTimeStampCount * step

/-- Reachability invariant of the worker issuing state: the count never
exceeds the per-microsecond capacity, the zero count only occurs in the
fresh state, and once something was issued, the stored rounded TBE lies
in the worker's stripe residue class modulo 1000. -/
def WorkerInv (step offset : Nat) (st : TSOWorkerState) : Prop :=
  st.lastRequestTimeStampCount ≤ nSlotsPerMicroSec step ∧
  (st.lastRequestTimeStampCount = 0 → st.lastRequestTBEMicroSecRounded = 0) ∧
  (1 ≤ st.lastRequestTimeStampCount →
    st.lastRequestTBEMicroSecRounded % 1000 = offset % 1000)

/-- Control info used by the C1 witness trace: one ready worker with step
1 and an ample threshold. -/
def c1Cfg : TSOWorkerControlInfo :=
  { IsReadyToIssueTS := true
    TBENanoSecStep := 1
    TBEAdjustment := 0
    TsDelta := 8000
    ReservedTimeShreshold := 1000000000
    BatchTTL := 8000 }

/-- C1 witness trace: three calls, the second within the same microsecond
as the first. -/
def c1Calls : List WorkerCall :=
  [⟨c1Cfg, 2000, 2⟩, ⟨c1Cfg, 2500, 1⟩, ⟨c1Cfg, 4000, 2⟩]

/-- Control info of the C7 witness: a ready worker with step 4 (four
worker cores) and an ample threshold. -/
def c7Cfg : TSOWorkerControlInfo :=
  { IsReadyToIssueTS := true
    TBENanoSecStep := 4
    TBEAdjustment := 0
    TsDelta := 8000
    ReservedTimeShreshold := 1000000000
    BatchTTL := 8000 }

/-- Batch the C7 witness call returns: three timestamps in the 5000 ns
microsecond, striped at offset 1 with step 4. -/
def c7Batch : TimestampBatch :=
  { tbeBase := 5001
    uncertaintyDelta := 8000
    tsoId := 7
    stepSize := 4
    startCount := 0
    batchSize := 3
    ttl := 8000 }

/-- Worker state after the C7 witness call. -/
def c7St : TSOWorkerState :=
  { lastRequestTBEMicroSecRounded := 5001, lastRequestTimeStampCount := 3 }

/-- Control info of the C2 witness with a low threshold 2000: a request
for five timestamps at TAI 2500 would need batch-end TBE 2004 and is
refused. -/
def c2CfgLow : TSOWorkerControlInfo :=
  { IsReadyToIssueTS := true
    TBENanoSecStep := 1
    TBEAdjustment := 0
    TsDelta := 8000
    ReservedTimeShreshold := 2000
    BatchTTL := 8000 }

/-- Initialized pending control info of the C3 handover traces (one
worker, step 1, as `InitWorkerControlInfo` would set up). -/
def c3W0 : TSOWorkerControlInfo :=
  { IsReadyToIssueTS := false
    TBENanoSecStep := 1
    TBEAdjustment := 0
    TsDelta := 8000
    ReservedTimeShreshold := 0
    BatchTTL := 8000 }

/-- C3 trace: the new master (previous threshold `R = 1500`) heartbeats
at TAI 1501 — extending the threshold and broadcasting readiness — and a
client request arrives at TAI 1999. -/
def c3Events : List (Nat × HandoverEvent) :=
  [(1501, HandoverEvent.hb 100000), (1999, HandoverEvent.request 1)]

/-- The batch the C3 trace produces at TAI 1999: its single timestamp is
`1000`, the microsecond floor of 1999. -/
def c3Batch : TimestampBatch :=
  { tbeBase := 1000
    uncertaintyDelta := 8000
    tsoId := 7
    stepSize := 1
    startCount := 0
    batchSize := 1
    ttl := 8000 }

/-! Theorems. -/

/-- C4: for every controller state, `GenNewLeaseVal()` returns exactly
`TimeAuthorityNow()` (current TAI time in nanoseconds: local steady-clock
nanoseconds plus the stored TAI-local difference) plus three
heartbeat-timer intervals plus one millisecond, all in nanoseconds (in
`uint64_t` arithmetic). -/
theorem C4_genNewLeaseVal_eq_spec (st : TSOControllerState) (nowLocal : Nat) :
    GenNewLeaseVal st nowLocal = specLeaseVal st nowLocal := by
  simp only [GenNewLeaseVal, specLeaseVal, TimeAuthorityNow, uint64Mod]
  norm_num
  omega

/-- C5: `RenewLeaseAndExtendReservedTimeThreshold()` always completes
(it is a total function with no consensus interaction) and returns the
pair whose two components are both the single `GenNewLeaseVal()` value
computed at the time of the call; in particular the new lease and the new
threshold are equal. -/
theorem C5_renewLease_returns_lease_pair (st : TSOControllerState) (nowLocal : Nat) :
    RenewLeaseAndExtendReservedTimeThreshold st nowLocal =
      (GenNewLeaseVal st nowLocal, GenNewLeaseVal st nowLocal) ∧
    (RenewLeaseAndExtendReservedTimeThreshold st nowLocal).1 =
      (RenewLeaseAndExtendReservedTimeThreshold st nowLocal).2 := by
  exact ⟨rfl, rfl⟩

/-- C9: `JoinServerCluster()` always returns the pair
`(isMaster = true, prevReservedTimeThreshold = 0)` (it contacts no
consensus service: the embedded function is pure, as the source builds a
ready future locally), and as a side effect sets the controller's lease
to `GenNewLeaseVal()` and the master URL to the instance's own TCP server
endpoint, leaving every other controller field unchanged. -/
theorem C9_joinServerCluster_fake_master (st : TSOControllerState) (nowLocal : Nat)
    (ownTcpURL : String) :
    (JoinServerCluster st nowLocal ownTcpURL).1 = (true, 0) ∧
    (JoinServerCluster st nowLocal ownTcpURL).2.myLease = GenNewLeaseVal st nowLocal ∧
    (JoinServerCluster st nowLocal ownTcpURL).2.masterInstanceURL = ownTcpURL ∧
    (JoinServerCluster st nowLocal ownTcpURL).2.prevReservedTimeShreshold =
      st.prevReservedTimeShreshold ∧
    (JoinServerCluster st nowLocal ownTcpURL).2.isMasterInstance = st.isMasterInstance := by
  exact ⟨rfl, rfl, rfl, rfl, rfl⟩

/-- C10: a default-constructed `TSOWorkerControlInfo` has
`IsReadyToIssueTS = false` and all numeric fields zero; consequently a
worker that has not yet received any `UpdateWorkerControlInfo` (so it
still holds the default-constructed control info and the zero-initialized
counters) fails every `GetTimestampFromTSO` request with `NotReady`. -/
theorem C10_default_control_info_not_ready :
    TSOWorkerControlInfo.mkDefault.IsReadyToIssueTS = false ∧
    TSOWorkerControlInfo.mkDefault.TBENanoSecStep = 0 ∧
    TSOWorkerControlInfo.mkDefault.TBEAdjustment = 0 ∧
    TSOWorkerControlInfo.mkDefault.TsDelta = 0 ∧
    TSOWorkerControlInfo.mkDefault.ReservedTimeShreshold = 0 ∧
    TSOWorkerControlInfo.mkDefault.BatchTTL = 0 ∧
    ∀ tsoId offset nowTAI req,
      GetTimestampFromTSO TSOWorkerControlInfo.mkDefault tsoId offset
        initWorkerState nowTAI req = none := by
  refine ⟨rfl, rfl, rfl, rfl, rfl, rfl, fun tsoId offset nowTAI req => ?_⟩
  simp [GetTimestampFromTSO, TSOWorkerControlInfo.mkDefault]

/-- Auxiliary strengthening for C6: along one master epoch every
broadcast control info carries a reserved-time threshold at least the
starting pending one, and the broadcast thresholds form a nondecreasing
chain. -/
theorem runMasterEpoch_threshold_mono (evs : List CtrlEvent) :
    ∀ pending : TSOWorkerControlInfo,
      (∀ b ∈ (runMasterEpoch pending evs).2,
        pending.ReservedTimeShreshold ≤ b.ReservedTimeShreshold) ∧
      List.Chain' (fun a b : TSOWorkerControlInfo =>
        a.ReservedTimeShreshold ≤ b.ReservedTimeShreshold) (runMasterEpoch pending evs).2 := by
  induction evs with
  | nil => intro pending; simp [runMasterEpoch]
  | cons ev evs ih =>
    intro pending
    cases ev with
    | heartbeat nt =>
      have hle : pending.ReservedTimeShreshold ≤
          (applyRenewedThreshold pending nt).ReservedTimeShreshold := by
        unfold applyRenewedThreshold
        split
        · next h => exact le_of_lt h
        · exact le_rfl
      obtain ⟨ihAll, ihChain⟩ := ih (applyRenewedThreshold pending nt)
      refine ⟨?_, ?_⟩
      · intro b hb
        simp only [runMasterEpoch, List.mem_cons] at hb
        rcases hb with rfl | hb
        · exact hle
        · exact le_trans hle (ihAll b hb)
      · simp only [runMasterEpoch]
        exact List.chain'_cons'.2 ⟨fun b hb => ihAll b (List.mem_of_mem_head? hb), ihChain⟩
    | timeSync adj tsD =>
      obtain ⟨ihAll, ihChain⟩ := ih (applyTimeSync pending adj tsD)
      refine ⟨fun b hb => ?_, ?_⟩
      · have : (applyTimeSync pending adj tsD).ReservedTimeShreshold =
            pending.ReservedTimeShreshold := rfl
        simp only [runMasterEpoch] at hb
        exact this ▸ ihAll b hb
      · simpa only [runMasterEpoch] using ihChain

/-- C8 counterexample: the source declares `TBEAdjustment` (and
`_diffTALocalInNanosec`) as `uint64_t`, not as a signed 64-bit type; no
in-range value of the field equals the negative delta `-1`, so "a
negative delta is representable" fails as stated. -/
theorem C8_counterexample_unsigned_field :
    ¬ ∃ cfg : TSOWorkerControlInfo,
        cfg.TBEAdjustment < uint64Mod ∧ (cfg.TBEAdjustment : Int) = -1 := by
  rintro ⟨cfg, -, h⟩
  omega

/-- C8 amended: `TBEAdjustment` and `_diffTALocalInNanosec` are unsigned
64-bit quantities and `nowTAI = nowLocal + adjustment` is `uint64_t`
addition modulo `2^64`; a negative delta is representable only through
its two's-complement encoding, for which the wrapping unsigned addition
of `TimeAuthorityNow` yields exactly the signed sum `nowLocal + delta`
whenever that sum is in the `uint64_t` range. -/
theorem C8_adjustment_wraparound (st : TSOControllerState) (delta : Int) (nowLocal : Nat)
    (henc : st.diffTALocalInNanosec = encodeUInt64 delta)
    (hlo : 0 ≤ (nowLocal : Int) + delta) (hhi : (nowLocal : Int) + delta < 2 ^ 64) :
    (TimeAuthorityNow st nowLocal : Int) = (nowLocal : Int) + delta := by
  simp only [TimeAuthorityNow, uint64Mod, encodeUInt64, henc] at *
  norm_num at *
  omega

/-- C8 witness: at local reading 100 with encoded delta `-5`, the wrapped
unsigned addition produces the signed sum `95`. -/
theorem C8_adjustment_wraparound_witness :
    (0 ≤ (100 : Int) + (-5)) ∧ ((100 : Int) + (-5) < 2 ^ 64) ∧
    (TimeAuthorityNow c8CtrlState 100 : Int) = (100 : Int) + (-5) :=
  ⟨by norm_num, by norm_num,
    C8_adjustment_wraparound c8CtrlState (-5) 100 rfl (by norm_num) (by norm_num)⟩

/-- Membership in a decoded batch, unfolded to the index form. -/
theorem decodeBatch_mem {B : TimestampBatch} {x : Nat} :
    x ∈ decodeBatch B ↔
      ∃ i, i < B.batchSize ∧ x = B.tbeBase + (B.startCount + i) * B.stepSize := by
  simp only [decodeBatch, List.mem_map, List.mem_range]
  constructor
  · rintro ⟨i, hi, rfl⟩; exact ⟨i, hi, rfl⟩
  · rintro ⟨i, hi, rfl⟩; exact ⟨i, hi, rfl⟩

/-- The start count `resolveSlot` picks is either zero (a fresh or
freshly advanced microsecond) or the previous count, still strictly below
the per-microsecond slot capacity. -/
theorem resolveSlot_start_cases (step offset : Nat) (st : TSOWorkerState) (nowTAI : Nat) :
    (resolveSlot step offset st nowTAI).2 = 0 ∨
    (resolveSlot step offset st nowTAI).2 < nSlotsPerMicroSec step := by
  simp only [resolveSlot]
  split
  · split
    · exact Or.inl rfl
    · next h => exact Or.inr (by omega)
  · exact Or.inl rfl

/-- Arithmetic core of the per-microsecond capacity bound, stated over
plain variables so that the slot capacity `1000 / step` can be abstracted
before linear arithmetic. -/
theorem start_add_min_le (req n s : Nat) (hc : s = 0 ∨ s < n) : s + min req (n - s) ≤ n := by
  omega

/-- Monotonicity of the decoded timestamp in its batch index. -/
theorem add_mul_le_of_index_lt (base s stp i size : Nat) (hi : i < size) :
    base + (s + i) * stp ≤ base + (s + size - 1) * stp := by
  have hfac : s + i ≤ s + size - 1 := by omega
  exact Nat.add_le_add_left (Nat.mul_le_mul_right stp hfac) base

/-- C7: every successful `GetTimestampFromTSO` call returns a batch with
`batchSize = min(batchSizeRequested, 1000 / TBENanoSecStep − startCount)`,
and consequently every returned batch satisfies
`startCount + batchSize ≤ 1000 / stepSize`. -/
theorem C7_batch_size_min (cfg : TSOWorkerControlInfo) (tsoId offset : Nat)
    (st : TSOWorkerState) (nowTAI req : Nat) (B : TimestampBatch) (st' : TSOWorkerState)
    (h : GetTimestampFromTSO cfg tsoId offset st nowTAI req = some (B, st')) :
    B.batchSize = min req (1000 / cfg.TBENanoSecStep - B.startCount) ∧
    B.startCount + B.batchSize ≤ 1000 / cfg.TBENanoSecStep := by
  simp only [GetTimestampFromTSO] at h
  split at h
  · exact absurd h (by simp)
  · split at h
    · next hreq =>
      simp only [Option.some.injEq, Prod.mk.injEq] at h
      obtain ⟨hB, -⟩ := h
      subst hB
      subst hreq
      simp [emptyBatch]
    · split at h
      · exact absurd h (by simp)
      · simp only [Option.some.injEq, Prod.mk.injEq] at h
        obtain ⟨hB, -⟩ := h
        subst hB
        have hcases := resolveSlot_start_cases cfg.TBENanoSecStep offset st nowTAI
        simp only [nSlotsPerMicroSec] at hcases
        exact ⟨rfl, start_add_min_le req (1000 / cfg.TBENanoSecStep)
          (resolveSlot cfg.TBENanoSecStep offset st nowTAI).2 hcases⟩

/-- C2: no timestamp a worker issues has `tEndTAI` above the
`ReservedTimeShreshold` of the control info in force when the batch was
produced, and a request whose batch-end TBE would exceed that threshold
fails `NotReady` (returns no batch) instead. -/
theorem C2_threshold_bound (cfg : TSOWorkerControlInfo) (tsoId offset : Nat)
    (st : TSOWorkerState) (nowTAI req : Nat) :
    (∀ B st', GetTimestampFromTSO cfg tsoId offset st nowTAI req = some (B, st') →
      ∀ x ∈ decodeBatch B, x ≤ cfg.ReservedTimeShreshold) ∧
    (cfg.IsReadyToIssueTS = true → 1 ≤ req →
      cfg.ReservedTimeShreshold <
        tbeEndOfBatch cfg.TBENanoSecStep (resolveSlot cfg.TBENanoSecStep offset st nowTAI)
          (min req (nSlotsPerMicroSec cfg.TBENanoSecStep -
            (resolveSlot cfg.TBENanoSecStep offset st nowTAI).2)) →
      GetTimestampFromTSO cfg tsoId offset st nowTAI req = none) := by
  constructor
  · intro B st' h x hx
    simp only [GetTimestampFromTSO] at h
    split at h
    · exact absurd h (by simp)
    · split at h
      · simp only [Option.some.injEq, Prod.mk.injEq] at h
        obtain ⟨hB, -⟩ := h
        subst hB
        simp [decodeBatch, emptyBatch] at hx
      · split at h
        · exact absurd h (by simp)
        · next hle =>
          simp only [Option.some.injEq, Prod.mk.injEq] at h
          obtain ⟨hB, -⟩ := h
          subst hB
          rw [decodeBatch_mem] at hx
          obtain ⟨i, hi, rfl⟩ := hx
          simp only [not_lt, tbeEndOfBatch] at hle
          exact le_trans (add_mul_le_of_index_lt _ _ _ _ _ hi) hle
  · intro hready hreq hexceed
    cases hres : GetTimestampFromTSO cfg tsoId offset st nowTAI req with
    | none => rfl
    | some p =>
      exfalso
      simp only [GetTimestampFromTSO, hready] at hres
      rw [if_neg (by simp), if_neg (by omega), if_pos hexceed] at hres
      exact absurd hres (by simp)

/-- The fresh worker state satisfies the invariant. -/
theorem workerInv_init (step offset : Nat) : WorkerInv step offset initWorkerState :=
  ⟨Nat.zero_le _, fun _ => rfl, fun h => absurd h (by simp [initWorkerState])⟩

/-- Exhaustive description of `resolveSlot`: either the candidate
microsecond equals the stored one and its slots are exhausted (advance by
one microsecond, restart the count), or it equals the stored one with
slots remaining (continue the count), or the clock moved to a strictly
newer microsecond (restart the count there). -/
theorem resolveSlot_eq_cases (step offset : Nat) (st : TSOWorkerState) (nowTAI : Nat) :
    (max (tbeCandidate offset nowTAI) st.lastRequestTBEMicroSecRounded =
        st.lastRequestTBEMicroSecRounded ∧
      nSlotsPerMicroSec step ≤ st.lastRequestTimeStampCount ∧
      resolveSlot step offset st nowTAI = (st.lastRequestTBEMicroSecRounded + 1000, 0)) ∨
    (max (tbeCandidate offset nowTAI) st.lastRequestTBEMicroSecRounded =
        st.lastRequestTBEMicroSecRounded ∧
      st.lastRequestTimeStampCount < nSlotsPerMicroSec step ∧
      resolveSlot step offset st nowTAI =
        (st.lastRequestTBEMicroSecRounded, st.lastRequestTimeStampCount)) ∨
    (st.lastRequestTBEMicroSecRounded < tbeCandidate offset nowTAI ∧
      resolveSlot step offset st nowTAI = (tbeCandidate offset nowTAI, 0)) := by
  by_cases h : max (tbeCandidate offset nowTAI) st.lastRequestTBEMicroSecRounded =
      st.lastRequestTBEMicroSecRounded
  · by_cases hfull : nSlotsPerMicroSec step ≤ st.lastRequestTimeStampCount
    · exact Or.inl ⟨h, hfull, by simp only [resolveSlot]; rw [if_pos h, if_pos hfull]⟩
    · exact Or.inr (Or.inl ⟨h, by omega,
        by simp only [resolveSlot]; rw [if_pos h, if_neg hfull]⟩)
  · refine Or.inr (Or.inr ⟨by omega, ?_⟩)
    have hmax : max (tbeCandidate offset nowTAI) st.lastRequestTBEMicroSecRounded =
        tbeCandidate offset nowTAI := by omega
    simp only [resolveSlot]
    rw [hmax, if_neg (by omega)]

/-- The product of the stored count and the step never exceeds one
microsecond's worth of nanoseconds, under the capacity invariant. -/
theorem count_mul_step_le (step cnt : Nat) (h : cnt ≤ nSlotsPerMicroSec step) :
    cnt * step ≤ 1000 :=
  le_trans (Nat.mul_le_mul_right step h) (Nat.div_mul_le_self 1000 step)

/-- The slot resolved for a request lies in the worker's stripe residue
class and at or above the issuing floor, and its start count is the
continuation the invariant allows. -/
theorem resolveSlot_spec (step offset : Nat) (st : TSOWorkerState) (nowTAI : Nat)
    (h1 : 1 ≤ step) (h2 : step ≤ 1000)
    (hinv : WorkerInv step offset st) :
    nextFloor step st ≤ (resolveSlot step offset st nowTAI).1 +
      (resolveSlot step offset st nowTAI).2 * step ∧
    (resolveSlot step offset st nowTAI).1 % 1000 = offset % 1000 ∧
    ((resolveSlot step offset st nowTAI).2 = 0 ∨
      (resolveSlot step offset st nowTAI).2 < nSlotsPerMicroSec step) := by
  obtain ⟨hcap, hzero, hcong⟩ := hinv
  have hns1 : 1 ≤ nSlotsPerMicroSec step := (Nat.one_le_div_iff (by omega)).2 h2
  have hprod : st.lastRequestTimeStampCount * step ≤ 1000 := count_mul_step_le step _ hcap
  have hcandcong : tbeCandidate offset nowTAI % 1000 = offset % 1000 := by
    simp only [tbeCandidate]
    omega
  rcases resolveSlot_eq_cases step offset st nowTAI with
    ⟨hmax, hfull, heq⟩ | ⟨hmax, hroom, heq⟩ | ⟨hgt, heq⟩
  · rw [heq]
    dsimp only
    have hcnt1 : 1 ≤ st.lastRequestTimeStampCount := le_trans hns1 hfull
    have hc := hcong hcnt1
    refine ⟨?_, by omega, Or.inl rfl⟩
    simp only [nextFloor, zero_mul, add_zero]
    omega
  · rw [heq]
    dsimp only
    refine ⟨le_of_eq rfl, ?_, Or.inr hroom⟩
    by_cases hcnt : 1 ≤ st.lastRequestTimeStampCount
    · exact hcong hcnt
    · have h0 := hzero (by omega)
      have hcle : tbeCandidate offset nowTAI ≤ st.lastRequestTBEMicroSecRounded := by
        omega
      simp only [tbeCandidate] at hcle
      omega
  · rw [heq]
    dsimp only
    refine ⟨?_, hcandcong, Or.inl rfl⟩
    by_cases hcnt : 1 ≤ st.lastRequestTimeStampCount
    · have hc := hcong hcnt
      simp only [nextFloor, zero_mul, add_zero]
      omega
    · have hc0 : st.lastRequestTimeStampCount = 0 := by omega
      have h0 := hzero hc0
      simp only [nextFloor, hc0, h0, zero_mul, add_zero, zero_add]
      exact Nat.zero_le _

/-- Strict growth of the decoded timestamp in its batch index. -/
theorem add_mul_lt_of_index_lt (base s stp i size : Nat) (hstp : 1 ≤ stp) (hi : i < size) :
    base + (s + i) * stp < base + (s + size) * stp :=
  Nat.add_lt_add_left (mul_lt_mul_of_pos_right (by omega) (by omega)) base

/-- One successful request preserves the worker invariant, never lowers
the issuing floor, and returns a batch whose decoded timestamps are
strictly increasing and lie in the window between the old and the new
floor. -/
theorem GetTimestampFromTSO_step (cfg : TSOWorkerControlInfo) (tsoId offset : Nat)
    (st : TSOWorkerState) (nowTAI req : Nat) (B : TimestampBatch) (st' : TSOWorkerState)
    (h1 : 1 ≤ cfg.TBENanoSecStep) (h2 : cfg.TBENanoSecStep ≤ 1000)
    (hinv : WorkerInv cfg.TBENanoSecStep offset st)
    (h : GetTimestampFromTSO cfg tsoId offset st nowTAI req = some (B, st')) :
    WorkerInv cfg.TBENanoSecStep offset st' ∧
    nextFloor cfg.TBENanoSecStep st ≤ nextFloor cfg.TBENanoSecStep st' ∧
    List.Pairwise (· < ·) (decodeBatch B) ∧
    ∀ x ∈ decodeBatch B,
      nextFloor cfg.TBENanoSecStep st ≤ x ∧ x < nextFloor cfg.TBENanoSecStep st' := by
  simp only [GetTimestampFromTSO] at h
  split at h
  · exact absurd h (by simp)
  · split at h
    · next hreq =>
      simp only [Option.some.injEq, Prod.mk.injEq] at h
      obtain ⟨hB, hst⟩ := h
      subst hB
      subst hst
      refine ⟨hinv, le_rfl, ?_, ?_⟩
      · simp [decodeBatch, emptyBatch]
      · intro x hx
        simp [decodeBatch, emptyBatch] at hx
    · split at h
      · exact absurd h (by simp)
      · next hle =>
        simp only [Option.some.injEq, Prod.mk.injEq] at h
        obtain ⟨hB, hst⟩ := h
        subst hB
        subst hst
        obtain ⟨hlow, hcong, hscase⟩ :=
          resolveSlot_spec cfg.TBENanoSecStep offset st nowTAI h1 h2 hinv
        have hns1 : 1 ≤ nSlotsPerMicroSec cfg.TBENanoSecStep :=
          (Nat.one_le_div_iff (by omega)).2 h2
        have hsize1 : 1 ≤ min req (nSlotsPerMicroSec cfg.TBENanoSecStep -
            (resolveSlot cfg.TBENanoSecStep offset st nowTAI).2) := by
          rcases hscase with h0 | hlt <;> omega
        have hcap' : (resolveSlot cfg.TBENanoSecStep offset st nowTAI).2 +
            min req (nSlotsPerMicroSec cfg.TBENanoSecStep -
              (resolveSlot cfg.TBENanoSecStep offset st nowTAI).2) ≤
            nSlotsPerMicroSec cfg.TBENanoSecStep :=
          start_add_min_le req _ _ hscase
        have hnz : ¬ ((resolveSlot cfg.TBENanoSecStep offset st nowTAI).2 +
            min req (nSlotsPerMicroSec cfg.TBENanoSecStep -
              (resolveSlot cfg.TBENanoSecStep offset st nowTAI).2) = 0) := by
          omega
        have hfloor : nextFloor cfg.TBENanoSecStep st ≤
            (resolveSlot cfg.TBENanoSecStep offset st nowTAI).1 +
              ((resolveSlot cfg.TBENanoSecStep offset st nowTAI).2 +
                min req (nSlotsPerMicroSec cfg.TBENanoSecStep -
                  (resolveSlot cfg.TBENanoSecStep offset st nowTAI).2)) *
                cfg.TBENanoSecStep :=
          le_trans hlow (Nat.add_le_add_left
            (Nat.mul_le_mul_right cfg.TBENanoSecStep (Nat.le_add_right _ _)) _)
        refine ⟨⟨hcap', fun hh => absurd hh hnz, fun _ => hcong⟩, hfloor, ?_, ?_⟩
        · refine List.Pairwise.map _ ?_ (List.pairwise_lt_range _)
          intro a b hab
          exact add_mul_lt_of_index_lt _ _ _ _ _ h1 hab
        · intro x hx
          rw [decodeBatch_mem] at hx
          obtain ⟨i, hi, rfl⟩ := hx
          refine ⟨le_trans hlow (Nat.add_le_add_left
            (Nat.mul_le_mul_right cfg.TBENanoSecStep (Nat.le_add_right _ _)) _), ?_⟩
          exact add_mul_lt_of_index_lt _ _ _ i _ h1 hi

/-- Running a worker from an invariant state over any calls whose control
infos agree on the fixed step: the invariant is preserved, the issuing
floor never decreases, and the concatenated decoded timestamps are
strictly increasing and confined between the initial and final floors. -/
theorem runWorker_spec (step0 tsoId offset : Nat) (h1 : 1 ≤ step0) (h2 : step0 ≤ 1000) :
    ∀ (calls : List WorkerCall) (st : TSOWorkerState),
      (∀ c ∈ calls, c.cfg.TBENanoSecStep = step0) →
      WorkerInv step0 offset st →
      WorkerInv step0 offset (runWorker tsoId offset st calls).1 ∧
      nextFloor step0 st ≤ nextFloor step0 (runWorker tsoId offset st calls).1 ∧
      List.Pairwise (· < ·) (issuedOf (runWorker tsoId offset st calls).2) ∧
      ∀ x ∈ issuedOf (runWorker tsoId offset st calls).2,
        nextFloor step0 st ≤ x ∧ x < nextFloor step0 (runWorker tsoId offset st calls).1 := by
  intro calls
  induction calls with
  | nil =>
    intro st _ hinv
    exact ⟨hinv, le_rfl, by simp [runWorker, issuedOf], by simp [runWorker, issuedOf]⟩
  | cons c cs ih =>
    intro st hsteps hinv
    have hc : c.cfg.TBENanoSecStep = step0 := hsteps c (List.mem_cons_self c cs)
    have hcs : ∀ c' ∈ cs, c'.cfg.TBENanoSecStep = step0 :=
      fun c' hmem => hsteps c' (List.mem_cons_of_mem c hmem)
    cases hres : GetTimestampFromTSO c.cfg tsoId offset st c.nowTAI c.req with
    | none =>
      have hrun : runWorker tsoId offset st (c :: cs) = runWorker tsoId offset st cs := by
        simp [runWorker, hres]
      rw [hrun]
      exact ih st hcs hinv
    | some p =>
      obtain ⟨B, st'⟩ := p
      have hinv0 : WorkerInv c.cfg.TBENanoSecStep offset st := by rw [hc]; exact hinv
      have hstep := GetTimestampFromTSO_step c.cfg tsoId offset st c.nowTAI c.req B st'
        (by rw [hc]; exact h1) (by rw [hc]; exact h2) hinv0 hres
      rw [hc] at hstep
      obtain ⟨hinv', hfl, hpw, hwin⟩ := hstep
      have hrun : runWorker tsoId offset st (c :: cs) =
          ((runWorker tsoId offset st' cs).1, B :: (runWorker tsoId offset st' cs).2) := by
        simp [runWorker, hres]
      rw [hrun]
      obtain ⟨ihinv, ihfl, ihpw, ihwin⟩ := ih st' hcs hinv'
      refine ⟨ihinv, le_trans hfl ihfl, ?_, ?_⟩
      · simp only [issuedOf]
        rw [List.pairwise_append]
        exact ⟨hpw, ihpw,
          fun a ha b hb => lt_of_lt_of_le ((hwin a ha).2) ((ihwin b hb).1)⟩
      · intro x hx
        simp only [issuedOf, List.mem_append] at hx
        rcases hx with hx | hx
        · exact ⟨(hwin x hx).1, lt_of_lt_of_le (hwin x hx).2 ihfl⟩
        · exact ⟨le_trans hfl (ihwin x hx).1, (ihwin x hx).2⟩

/-- C1: across successive `GetTimestampFromTSO` calls on one worker, all
`tEndTAI` values decoded from the returned batches, in return order, are
strictly increasing.  The per-call control infos may vary freely in
threshold, adjustment, uncertainty and readiness; the step is the fixed
per-process worker-core count, a positive `uint8_t` value (the
hypotheses `1 ≤ step0 ≤ 1000`). -/
theorem C1_issued_strictly_increasing (step0 tsoId offset : Nat)
    (calls : List WorkerCall) (h1 : 1 ≤ step0) (h2 : step0 ≤ 1000)
    (hsteps : ∀ c ∈ calls, c.cfg.TBENanoSecStep = step0) :
    List.Pairwise (· < ·)
      (issuedOf (runWorker tsoId offset initWorkerState calls).2) :=
  (runWorker_spec step0 tsoId offset h1 h2 calls initWorkerState hsteps
    (workerInv_init step0 offset)).2.2.1

/-- C1 witness: on the concrete three-call trace the issued `tEndTAI`
values evaluate to `[2000, 2001, 2002, 4000, 4001]` and are strictly
increasing by the theorem. -/
theorem C1_issued_strictly_increasing_witness :
    (∀ c ∈ c1Calls, c.cfg.TBENanoSecStep = 1) ∧
    issuedOf (runWorker 7 0 initWorkerState c1Calls).2 = [2000, 2001, 2002, 4000, 4001] ∧
    List.Pairwise (· < ·) (issuedOf (runWorker 7 0 initWorkerState c1Calls).2) :=
  ⟨by decide, by decide,
    C1_issued_strictly_increasing 1 7 0 c1Calls (by decide) (by decide) (by decide)⟩

/-- A successful request implies the worker's control info was ready. -/
theorem GetTimestampFromTSO_ready (cfg : TSOWorkerControlInfo) (tsoId offset : Nat)
    (st : TSOWorkerState) (nowTAI req : Nat) (B : TimestampBatch) (st' : TSOWorkerState)
    (h : GetTimestampFromTSO cfg tsoId offset st nowTAI req = some (B, st')) :
    cfg.IsReadyToIssueTS = true := by
  cases hr : cfg.IsReadyToIssueTS with
  | true => rfl
  | false => simp [GetTimestampFromTSO, hr] at h

/-- The microsecond-rounded base a request resolves is at least the
stripe candidate of the current clock reading. -/
theorem resolveSlot_fst_ge (step offset : Nat) (st : TSOWorkerState) (nowTAI : Nat) :
    tbeCandidate offset nowTAI ≤ (resolveSlot step offset st nowTAI).1 := by
  rcases resolveSlot_eq_cases step offset st nowTAI with
    ⟨hmax, -, heq⟩ | ⟨hmax, -, heq⟩ | ⟨-, heq⟩ <;> rw [heq] <;> dsimp only <;> omega

/-- Every timestamp of a successful batch lies within one microsecond
below the adjusted clock reading of the request (or above it): the
microsecond flooring loses at most 999 ns. -/
theorem GetTimestampFromTSO_now_lower (cfg : TSOWorkerControlInfo) (tsoId offset : Nat)
    (st : TSOWorkerState) (nowTAI req : Nat) (B : TimestampBatch) (st' : TSOWorkerState)
    (h : GetTimestampFromTSO cfg tsoId offset st nowTAI req = some (B, st')) :
    ∀ x ∈ decodeBatch B, nowTAI ≤ x + 999 := by
  intro x hx
  simp only [GetTimestampFromTSO] at h
  split at h
  · exact absurd h (by simp)
  · split at h
    · simp only [Option.some.injEq, Prod.mk.injEq] at h
      obtain ⟨hB, -⟩ := h
      subst hB
      simp [decodeBatch, emptyBatch] at hx
    · split at h
      · exact absurd h (by simp)
      · simp only [Option.some.injEq, Prod.mk.injEq] at h
        obtain ⟨hB, -⟩ := h
        subst hB
        rw [decodeBatch_mem] at hx
        obtain ⟨i, hi, rfl⟩ := hx
        dsimp only at hi ⊢
        have hbase : (resolveSlot cfg.TBENanoSecStep offset st nowTAI).1 ≤
            (resolveSlot cfg.TBENanoSecStep offset st nowTAI).1 +
              ((resolveSlot cfg.TBENanoSecStep offset st nowTAI).2 + i) *
                cfg.TBENanoSecStep :=
          Nat.le_add_right _ _
        have hcand := resolveSlot_fst_ge cfg.TBENanoSecStep offset st nowTAI
        have hfloorc : nowTAI ≤ tbeCandidate offset nowTAI + 999 := by
          simp only [tbeCandidate]
          omega
        omega

/-- Safe-handover run property, generalized over the starting state: if
every future event time is at least `t0` and the worker can only be ready
because of a broadcast strictly after `R`, then every batch produced by
the run is produced at a time strictly after `R` and all its timestamps
lie strictly above `R − 1000`. -/
theorem runHandover_aux (R tsoId offset : Nat) :
    ∀ (events : List (Nat × HandoverEvent)) (s : HandoverState) (t0 : Nat),
      List.Chain' (· ≤ ·) (t0 :: events.map Prod.fst) →
      (s.workerVCI.IsReadyToIssueTS = true → R < t0) →
      ∀ p ∈ (runHandover R tsoId offset s events).2,
        ∀ B, p.2 = some B → R < p.1 ∧ ∀ x ∈ decodeBatch B, R < x + 1000 := by
  intro events
  induction events with
  | nil =>
    intro s t0 _ _ p hp
    simp [runHandover] at hp
  | cons e es ih =>
    obtain ⟨t, ev⟩ := e
    intro s t0 hchain hready p hp
    rw [List.map_cons] at hchain
    obtain ⟨ht0t, hchain'⟩ := List.chain'_cons.1 hchain
    cases ev with
    | hb nt =>
      simp only [runHandover, handoverStep, List.mem_cons] at hp
      rcases hp with rfl | hp
      · intro B hB
        simp at hB
      · exact ih _ t hchain'
          (fun hr => by
            simp only [broadcastReady] at hr
            exact of_decide_eq_true hr) p hp
    | request req =>
      cases hres : GetTimestampFromTSO s.workerVCI tsoId offset s.workerSt t req with
      | none =>
        simp only [runHandover, handoverStep, hres, List.mem_cons] at hp
        rcases hp with rfl | hp
        · intro B hB
          simp at hB
        · exact ih s t hchain' (fun hr => lt_of_lt_of_le (hready hr) ht0t) p hp
      | some q =>
        obtain ⟨B0, st'⟩ := q
        have hvciready := GetTimestampFromTSO_ready _ tsoId offset _ t req B0 st' hres
        have hRt : R < t := lt_of_lt_of_le (hready hvciready) ht0t
        simp only [runHandover, handoverStep, hres, List.mem_cons] at hp
        rcases hp with rfl | hp
        · intro B hB
          simp only [Option.some.injEq] at hB
          subst hB
          refine ⟨hRt, fun x hx => ?_⟩
          have := GetTimestampFromTSO_now_lower _ tsoId offset _ t req B0 st' hres x hx
          omega
        · exact ih { s with workerSt := st' } t hchain'
            (fun hr => lt_of_lt_of_le (hready hr) ht0t) p hp

/-- C3 (amended): after a handover with previous reserved-time threshold
`R`, along any time-ordered run from the post-`SetRoleInternal` state, a
worker returns a batch only for requests at TAI time strictly after `R`
(every `GetTimestampFromTSO` at `TAI-now ≤ R` fails `NotReady`), and
every timestamp it ever issues — in particular the first — satisfies
`tEndTAI + 1000 > R`, i.e. lies above `R` up to the sub-microsecond
flooring of the batch base.  The unamended bound `tEndTAI > R` fails by
up to one microsecond (see the counterexample). -/
theorem C3_handover_wait_out (R tsoId offset : Nat) (w0 : TSOWorkerControlInfo)
    (events : List (Nat × HandoverEvent))
    (hchain : List.Chain' (· ≤ ·) (events.map Prod.fst)) :
    ∀ p ∈ (runHandover R tsoId offset (initHandoverState R w0) events).2,
      ∀ B, p.2 = some B → R < p.1 ∧ ∀ x ∈ decodeBatch B, R < x + 1000 := by
  have h0 : List.Chain' (· ≤ ·) (0 :: events.map Prod.fst) :=
    List.chain'_cons'.2 ⟨fun y _ => Nat.zero_le y, hchain⟩
  exact runHandover_aux R tsoId offset events (initHandoverState R w0) 0 h0
    (fun hr => by simp [initHandoverState, TSOWorkerControlInfo.mkDefault] at hr)

/-- C7 witness: the concrete call succeeds with the stated batch, whose
size is the requested 3 (well under the `1000/4` capacity), and the
capacity bound holds. -/
theorem C7_batch_size_min_witness :
    GetTimestampFromTSO c7Cfg 7 1 initWorkerState 5000 3 = some (c7Batch, c7St) ∧
    (c7Batch.batchSize = min 3 (1000 / c7Cfg.TBENanoSecStep - c7Batch.startCount) ∧
      c7Batch.startCount + c7Batch.batchSize ≤ 1000 / c7Cfg.TBENanoSecStep) :=
  ⟨by decide,
    C7_batch_size_min c7Cfg 7 1 initWorkerState 5000 3 c7Batch c7St (by decide)⟩

/-- C2 witness: every timestamp of the concrete successful batch is below
the threshold in force, and the concrete threshold-exceeding request
returns no batch. -/
theorem C2_threshold_bound_witness :
    (∀ x ∈ decodeBatch c7Batch, x ≤ c7Cfg.ReservedTimeShreshold) ∧
    GetTimestampFromTSO c2CfgLow 7 0 initWorkerState 2500 5 = none :=
  ⟨(C2_threshold_bound c7Cfg 7 1 initWorkerState 5000 3).1 c7Batch c7St (by decide),
    (C2_threshold_bound c2CfgLow 7 0 initWorkerState 2500 5).2 rfl (by decide) (by decide)⟩

/-- C3 counterexample: on the time-ordered handover trace with previous
threshold `R = 1500`, the first (and only) issued timestamp evaluates to
`1000`, which is not greater than `R` — the microsecond flooring of the
batch base can dip below `R` even though the issuing request happened
strictly after `R`.  This refutes "the first successfully issued
timestamp has `tEndTAI > R`" as stated. -/
theorem C3_counterexample_first_issued_not_above_R :
    List.Chain' (· ≤ ·) (c3Events.map Prod.fst) ∧
    issuedOfRun (runHandover 1500 7 0 (initHandoverState 1500 c3W0) c3Events).2 = [1000] ∧
    ¬ (1500 < 1000) :=
  ⟨by simp [c3Events], by decide, by decide⟩

/-- C3 witness: the amended theorem applied to the concrete trace — the
request producing the batch ran at TAI 1999 > R = 1500 and its timestamp
1000 satisfies `R < 1000 + 1000`. -/
theorem C3_handover_wait_out_witness :
    List.Chain' (· ≤ ·) (c3Events.map Prod.fst) ∧
    (1500 < 1999 ∧ ∀ x ∈ decodeBatch c3Batch, 1500 < x + 1000) :=
  ⟨by simp [c3Events],
    C3_handover_wait_out 1500 7 0 c3W0 c3Events (by simp [c3Events])
      (1999, some c3Batch) (by decide) c3Batch rfl⟩

/-- C6: for any two consecutive worker-control-info broadcasts of the
same master epoch, the later one's `ReservedTimeShreshold` is greater
than or equal to the earlier one's — the heartbeat only ever overwrites
the pending threshold with a strictly larger value, and time-sync ticks
never touch it, so the broadcast threshold sequence is nondecreasing. -/
theorem C6_broadcast_thresholds_nondecreasing (pending0 : TSOWorkerControlInfo)
    (evs : List CtrlEvent) :
    List.Chain' (fun a b : TSOWorkerControlInfo =>
      a.ReservedTimeShreshold ≤ b.ReservedTimeShreshold) (runMasterEpoch pending0 evs).2 :=
  (runMasterEpoch_threshold_mono evs pending0).2

end TSO
